import Mathlib

/-!
Shallow embedding of `src/learners/one_slack_ssvm.py` (class `OneSlackSSVM`):
cutting-plane training of a 1-slack structural SVM.  Machine floats are
modelled as rationals, numpy vectors as lists of rationals, and the two
external collaborators — the cvxopt QP solver and the per-example
most-violated-constraint search `find_constraint` — as function parameters.
Diagnostic printing, verbosity and plotting are pure observation and are not
modelled; the observable side effects that matter to the spec (inference call
counts, debugger drops) are recorded as counters/flags in the results.
-/

namespace OneSlackSSVM

/-- A structured output as stored in a working constraint: either a plain
labeling or a (unary, pairwise) tuple as produced by pairwise problems. -/
inductive Lab where
  | plain : List Int → Lab
  | pair : List Int → List Int → Lab

/-- Modelled from the spec: `unwrap_pairwise` lives in `utils`, which is not
under `src/`; per the spec it strips any pairwise-structure wrapping from an
output (a (unary, pairwise) tuple yields its unary part, a plain labeling is
returned unchanged). -/
def unwrap_pairwise : Lab → List Int
  | Lab.plain y => y
  | Lab.pair y _ => y

/-- Vectors (numpy 1-d arrays of floats). -/
abbrev Vec := List ℚ

/-- Pointwise sum of two vectors (numpy `+`/`+=`); the shorter operand is
padded with zeros so the operation is total (the source only ever adds
equal-shape arrays, where this coincides with numpy). -/
def vaddPad : Vec → Vec → Vec
  | [], ys => ys
  | x :: xs, [] => x :: xs
  | x :: xs, y :: ys => (x + y) :: vaddPad xs ys

/-- numpy `np.dot` of two vectors. -/
def dot (u v : Vec) : ℚ := (List.zipWith (fun a b => a * b) u v).sum

/-- Scalar multiple of a vector. -/
def smul (c : ℚ) (v : Vec) : Vec := v.map (fun a => c * a)

/-- numpy `np.dot(a, M)` of a coefficient vector against the rows of a
matrix: the `a`-weighted sum of the rows. -/
def rowsDot (a : Vec) (rows : List Vec) : Vec :=
  (List.zipWith smul a rows).foldl vaddPad []

/-- A working constraint `(Ys, dpsi_mean, loss_mean)` as appended to the
store by `fit`. -/
structure WConstraint where
  Ys : List Lab
  dpsi : Vec
  loss : ℚ

/-- The hyperparameters of `OneSlackSSVM` that the training algorithm reads:
`problem.size_psi`, `max_iter`, `C`, `check_constraints`,
`positive_constraint` and `break_on_bad`.  Verbosity, plotting, `show_loss`
and parallelism settings are diagnostics-only and are not modelled. -/
structure Params where
  size_psi : ℕ
  max_iter : ℕ
  C : ℚ
  check_constraints : Bool
  positive_constraint : Option (List ℕ)
  break_on_bad : Bool

/-- The configuration stored by `__init__`: the algorithmic parameters plus
`tol`, which is stored but — its early-stopping block being commented out in
the source — never read by `fit`. -/
structure Config extends Params where
  tol : ℚ

/-- The tolerance `1e-5` used for slack comparisons. -/
def epsSlack : ℚ := 1 / 100000

/-- The diagonal regularization `1e-8` added to the kernel on the QP retry. -/
def regEps : ℚ := 1 / 100000000

/-- Status reported by the QP solver (`solution['status']`): either the
string "optimal" or anything else. -/
inductive QPStatus where
  | optimal
  | nonOptimal

/-- Whether a status differs from "optimal" (`solution['status'] != "optimal"`). -/
def isNonOptimal : QPStatus → Bool
  | QPStatus.optimal => false
  | QPStatus.nonOptimal => true

/-- The argument tuple handed to `cvxopt.solvers.qp(P, q, G, h, A, b)`,
matrices as lists of rows. -/
structure QPInput where
  P : List Vec
  q : Vec
  G : List Vec
  h : Vec
  A : List Vec
  b : Vec

/-- What the QP solver hands back: a status, the primal variables `x` (the
dual multipliers alpha of the SSVM), and the primal objective. -/
structure QPSolution where
  status : QPStatus
  x : Vec
  primalObjective : ℚ

/-- The Gram matrix `np.dot(psi_matrix, psi_matrix.T)`. -/
def gram (rows : List Vec) : List Vec :=
  rows.map (fun r => rows.map (fun s => dot r s))

/-- Add `c` on the diagonal of a square matrix (`+ c * np.eye n`). -/
def addDiag (m : List Vec) (c : ℚ) : List Vec :=
  m.enum.map (fun ir => ir.2.enum.map (fun ja => if ir.1 = ja.1 then ja.2 + c else ja.2))

/-- The rows `-np.identity n` of the positivity constraints on alpha. -/
def negIdy (n : ℕ) : List Vec :=
  (List.range n).map (fun i => (List.replicate n (0 : ℚ)).set i (-1))

/-- The rows `psi_matrix.T[positive_constraint]`: one row per positive index,
holding that coordinate of every constraint's `dpsi_mean`. -/
def positivityRows (idx : List ℕ) (psis : List Vec) : List Vec :=
  idx.map (fun j => psis.map (fun r => r.getD j 0))

/-- Build the cvxopt QP exactly as `_solve_1_slack_qp` does; `regularized`
selects the retry kernel `Q + 1e-8 * I`. -/
def buildQP (regularized : Bool) (p : Params) (constraints : List WConstraint) : QPInput :=
  let psis := constraints.map (fun c => c.dpsi)
  let losses := constraints.map (fun c => c.loss)
  let n := psis.length
  let P0 := gram psis
  let P := if regularized then addDiag P0 regEps else P0
  let q := losses.map (fun l => -l)
  let psisConstr := match p.positive_constraint with
    | none => []
    | some idx => positivityRows idx psis
  let G := negIdy n ++ psisConstr
  let h := List.replicate n (0 : ℚ) ++ List.replicate psisConstr.length (0 : ℚ)
  let A := [List.replicate n (1 : ℚ)]
  let b := [p.C]
  ⟨P, q, G, h, A, b⟩

/-- The retry logic of `_solve_1_slack_qp`: solve, and if the status is not
"optimal" solve once more with the regularized kernel.  The two booleans
report whether the retry happened and whether the final status was still
non-optimal — the point where the source drops into the IPython Tracer
debugger and then carries on with the non-optimal solution. -/
def finalSolution (solver : QPInput → QPSolution) (p : Params)
    (constraints : List WConstraint) : QPSolution × Bool × Bool :=
  let sol := solver (buildQP false p constraints)
  if isNonOptimal sol.status then
    let sol2 := solver (buildQP true p constraints)
    (sol2, true, isNonOptimal sol2.status)
  else
    (sol, false, false)

/-- Result of `_solve_1_slack_qp`: the new weights `w = np.dot(a, psi_matrix)`,
the solved primal objective, the recorded multipliers `a`, and the two
failure-path observations. -/
structure QPResult where
  w : Vec
  objective : ℚ
  alphas : Vec
  regularizedRetry : Bool
  tracerInvoked : Bool

/-- `_solve_1_slack_qp`: build and solve the dual QP over the constraint
store, with one regularized retry on non-optimal status; a second failure
invokes the interactive debugger (recorded in `tracerInvoked`) after which
the source continues and computes `w` from the non-optimal solution.
`n_samples` is passed by the caller but unused, as in the source. -/
def solve1SlackQP (solver : QPInput → QPSolution) (p : Params)
    (constraints : List WConstraint) (n_samples : ℕ) : QPResult :=
  let fs := finalSolution solver p constraints
  let a := fs.1.x
  let w := rowsDot a (constraints.map (fun c => c.dpsi))
  ⟨w, fs.1.primalObjective, a, fs.2.1, fs.2.2⟩

/-- Outcome of `_check_bad_constraint`: `reject` is the boolean the source
returns; `debugBreak` records whether the `break_on_bad` IPython Tracer
branch was entered on the way to rejecting. -/
structure CheckResult where
  reject : Bool
  debugBreak : Bool

/-- One entry of the `equals` list of `_check_bad_constraint`: whether the
new (already unwrapped) outputs are element-wise identical to the (unwrapped)
outputs of an old constraint. -/
def isDuplicate (ysPlain : List (List Int)) (c : WConstraint) : Bool :=
  (List.zip ysPlain (c.Ys.map unwrap_pairwise)).all (fun pr => pr.1 == pr.2)

/-- `_check_bad_constraint`. -/
def check_bad_constraint (p : Params) (Ys : List Lab) (slack : ℚ)
    (old_constraints : List WConstraint) (w : Vec) : CheckResult :=
  if slack < epsSlack then ⟨true, false⟩
  else
    let ysPlain := Ys.map unwrap_pairwise
    let equals := old_constraints.map (fun c => isDuplicate ysPlain c)
    if equals.any id then ⟨true, false⟩
    else if p.check_constraints then
      if old_constraints.any
          (fun con => decide (slack - max (con.loss - dot w con.dpsi) 0 < -epsSlack)) then
        ⟨true, p.break_on_bad⟩
      else ⟨false, false⟩
    else ⟨false, false⟩

/-- The aggregated data one loop iteration derives from the per-example
`find_constraint` results. -/
structure AggResult where
  Ys : List Lab
  dpsiMean : Vec
  lossMean : ℚ
  slack : ℚ

/-- One iteration's constraint finding and aggregation: call
`find_constraint(problem, x, y, w)` on every zipped `(x, y)` pair (each call
returns `(y_hat, delta_psi, violation, loss)`), accumulate the feature
differences into a zero vector and divide by their number (the source's
streaming mean), take `np.mean` of the losses, and compute
`slack = loss_mean - np.dot(w, dpsi_mean)`. -/
def stepAgg {ι : Type} (findC : ι → Lab → Vec → Lab × Vec × ℚ × ℚ)
    (XY : List (ι × Lab)) (D : ℕ) (w : Vec) : AggResult :=
  let results := XY.map (fun xy => findC xy.1 xy.2 w)
  let dpsis := results.map (fun r => r.2.1)
  let losses := results.map (fun r => r.2.2.2)
  let dpsiMean := (dpsis.foldl vaddPad (List.replicate D 0)).map
    (fun a => a / (dpsis.length : ℚ))
  let lossMean := losses.sum / (losses.length : ℚ)
  ⟨results.map (fun r => r.1), dpsiMean, lossMean, lossMean - dot w dpsiMean⟩

/-- The state `fit` threads through its main loop: weights, the constraint
store, the two curves, the recorded dual solutions, plus counters for
inference calls and for QP-failure debugger drops. -/
structure FitState where
  w : Vec
  constraints : List WConstraint
  lossCurve : List ℚ
  objectiveCurve : List ℚ
  alphas : List Vec
  inferenceCalls : ℕ
  qpTracers : ℕ

/-- The checker invocation the loop body makes at state `st` (the arguments
`fit` passes to `_check_bad_constraint`). -/
def stepCheck {ι : Type} (findC : ι → Lab → Vec → Lab × Vec × ℚ × ℚ) (p : Params)
    (XY : List (ι × Lab)) (st : FitState) : CheckResult :=
  check_bad_constraint p (stepAgg findC XY p.size_psi st.w).Ys
    (stepAgg findC XY p.size_psi st.w).slack st.constraints st.w

/-- The working constraint `(Ys, dpsi_mean, loss_mean)` the loop body would
append at state `st`. -/
def newConstraint {ι : Type} (findC : ι → Lab → Vec → Lab × Vec × ℚ × ℚ) (p : Params)
    (XY : List (ι × Lab)) (st : FitState) : WConstraint :=
  ⟨(stepAgg findC XY p.size_psi st.w).Ys, (stepAgg findC XY p.size_psi st.w).dpsiMean,
    (stepAgg findC XY p.size_psi st.w).lossMean⟩

/-- One pass of the main loop body: find and aggregate, check, and either
break (second component `true`, no constraint appended) or append the new
constraint, re-solve the QP and record the curves. -/
def fitStep {ι : Type} (solver : QPInput → QPSolution)
    (findC : ι → Lab → Vec → Lab × Vec × ℚ × ℚ) (p : Params)
    (XY : List (ι × Lab)) (n_samples : ℕ) (st : FitState) : FitState × Bool :=
  if (stepCheck findC p XY st).reject then
    ({ st with inferenceCalls := st.inferenceCalls + XY.length }, true)
  else
    let cons2 := st.constraints ++ [newConstraint findC p XY st]
    let qp := solve1SlackQP solver p cons2 n_samples
    ({ w := qp.w
       constraints := cons2
       lossCurve := st.lossCurve ++ [(stepAgg findC XY p.size_psi st.w).lossMean]
       objectiveCurve := st.objectiveCurve ++ [qp.objective]
       alphas := st.alphas ++ [qp.alphas]
       inferenceCalls := st.inferenceCalls + XY.length
       qpTracers := st.qpTracers + (if qp.tracerInvoked then 1 else 0) }, false)

/-- The `for iteration in xrange(max_iter)` loop, with early `break` on a
rejected constraint. -/
def fitLoop {ι : Type} (solver : QPInput → QPSolution)
    (findC : ι → Lab → Vec → Lab × Vec × ℚ × ℚ) (p : Params)
    (XY : List (ι × Lab)) (n_samples : ℕ) : ℕ → FitState → FitState
  | 0, st => st
  | fuel + 1, st =>
    let sb := fitStep solver findC p XY n_samples st
    if sb.2 then sb.1 else fitLoop solver findC p XY n_samples fuel sb.1

/-- `fit` over the algorithmic parameters: initialize `w = 0` of dimension
`size_psi`, default a missing warm start to the empty store, zip `X` with
`Y`, and run the loop. -/
def fitP {ι : Type} (solver : QPInput → QPSolution)
    (findC : ι → Lab → Vec → Lab × Vec × ℚ × ℚ) (p : Params)
    (X : List ι) (Y : List Lab) (constraints0 : Option (List WConstraint)) : FitState :=
  fitLoop solver findC p (X.zip Y) X.length p.max_iter
    ⟨List.replicate p.size_psi 0, constraints0.getD [], [], [], [], 0, 0⟩

/-- `OneSlackSSVM.fit`: reads every stored hyperparameter except `tol`,
whose early-stop block is commented out in the source. -/
def fit {ι : Type} (solver : QPInput → QPSolution)
    (findC : ι → Lab → Vec → Lab × Vec × ℚ × ℚ) (cfg : Config)
    (X : List ι) (Y : List Lab) (constraints0 : Option (List WConstraint)) : FitState :=
  fitP solver findC cfg.toParams X Y constraints0

/-- A tiny heap of Python list objects, used to state the reference
(aliasing and in-place mutation) behavior of the `constraints` argument. -/
structure ListHeap where
  fresh : ℕ
  store : ℕ → List WConstraint

/-- `fit` together with the reference it returns as `constraints_` and the
heap after the call. -/
structure FitHeapOut where
  res : FitState
  ref : ℕ
  heap : ListHeap

/-- Modelled from Python's object semantics: `fit` with a warm-start list
appends to the caller's very list object (`constraints.append(...)`) and
stores that same reference as `constraints_`; with `None` it allocates a
fresh list. -/
def fitOnHeap {ι : Type} (solver : QPInput → QPSolution)
    (findC : ι → Lab → Vec → Lab × Vec × ℚ × ℚ) (cfg : Config)
    (X : List ι) (Y : List Lab) (h : ListHeap) : Option ℕ → FitHeapOut
  | some r =>
    let res := fit solver findC cfg X Y (some (h.store r))
    ⟨res, r, ⟨h.fresh, fun i => if i = r then res.constraints else h.store i⟩⟩
  | none =>
    let res := fit solver findC cfg X Y none
    ⟨res, h.fresh, ⟨h.fresh + 1, fun i => if i = h.fresh then res.constraints else h.store i⟩⟩

/-- A stub QP solver that always reports non-optimal status. -/
def badSolver : QPInput → QPSolution :=
  fun inp => ⟨QPStatus.nonOptimal, List.replicate inp.q.length 1, 0⟩

/-- A stub QP solver that always reports optimal status and returns all-ones
multipliers. -/
def okSolver : QPInput → QPSolution :=
  fun inp => ⟨QPStatus.optimal, List.replicate inp.q.length 1, 0⟩

/-- A stub inference collaborator over natural-number inputs: every example
yields loss 1 and feature difference `[1]`. -/
def exFind : ℕ → Lab → Vec → Lab × Vec × ℚ × ℚ :=
  fun _ _ _ => (Lab.plain [0], [1], 0, 1)

/-- Concrete parameters used in evaluations: `size_psi = 2`, `max_iter = 10`,
`C = 1`, checking on, no positivity constraints, `break_on_bad` on. -/
def pEx : Params := ⟨2, 10, 1, true, none, true⟩

/-- Concrete configuration with `size_psi = 1`, one iteration. -/
def cfgEx : Config := ⟨⟨1, 1, 1, true, none, true⟩, 1 / 10000⟩

/-! Helper lemmas about the vector operations. -/

theorem vaddPad_getD (x y : Vec) (j : ℕ) :
    (vaddPad x y).getD j 0 = x.getD j 0 + y.getD j 0 := by
  induction x generalizing y j with
  | nil => simp [vaddPad]
  | cons a xs ih =>
    cases y with
    | nil => simp [vaddPad]
    | cons b ys =>
      cases j with
      | zero => simp [vaddPad]
      | succ j =>
        simp only [vaddPad, List.getD_cons_succ]
        exact ih ys j

theorem foldl_vaddPad_getD (l : List Vec) (acc : Vec) (j : ℕ) :
    (l.foldl vaddPad acc).getD j 0
      = acc.getD j 0 + (l.map (fun v => v.getD j 0)).sum := by
  induction l generalizing acc with
  | nil => simp
  | cons v l ih =>
    simp only [List.foldl_cons, List.map_cons, List.sum_cons]
    rw [ih, vaddPad_getD, add_assoc]

theorem getD_map_div (v : Vec) (c : ℚ) (j : ℕ) :
    (v.map (fun a => a / c)).getD j 0 = v.getD j 0 / c := by
  induction v generalizing j with
  | nil => simp
  | cons a v ih =>
    cases j with
    | zero => simp
    | succ j =>
      simp only [List.map_cons, List.getD_cons_succ]
      exact ih j

theorem getD_replicate_zero (n j : ℕ) : (List.replicate n (0 : ℚ)).getD j 0 = 0 := by
  induction n generalizing j with
  | zero => simp
  | succ n ih =>
    cases j with
    | zero => simp [List.replicate_succ]
    | succ j => simp [List.replicate_succ, ih]

theorem smul_getD (c : ℚ) (v : Vec) (j : ℕ) :
    (smul c v).getD j 0 = c * v.getD j 0 := by
  induction v generalizing j with
  | nil => simp [smul]
  | cons a v ih =>
    cases j with
    | zero => simp [smul]
    | succ j => simpa [smul] using ih j

theorem vaddPad_length (x y : Vec) : (vaddPad x y).length = max x.length y.length := by
  induction x generalizing y with
  | nil => simp [vaddPad]
  | cons a xs ih =>
    cases y with
    | nil => simp [vaddPad]
    | cons b ys => simp [vaddPad, ih, Nat.succ_max_succ]

theorem foldl_vaddPad_length (D : ℕ) (l : List Vec) (acc : Vec)
    (ha : acc.length = D) (hl : ∀ v ∈ l, v.length = D) :
    (l.foldl vaddPad acc).length = D := by
  induction l generalizing acc with
  | nil => simpa using ha
  | cons v l ih =>
    simp only [List.foldl_cons]
    apply ih
    · rw [vaddPad_length, ha, hl v (by simp)]
      exact Nat.max_self D
    · intro u hu
      exact hl u (by simp [hu])

theorem zipWith_smul_length_mem (D : ℕ) (a : Vec) (rows : List Vec)
    (hr : ∀ r ∈ rows, r.length = D) :
    ∀ v ∈ List.zipWith smul a rows, v.length = D := by
  induction a generalizing rows with
  | nil => intro v hv; simp at hv
  | cons c a ih =>
    intro v hv
    cases rows with
    | nil => simp at hv
    | cons r rows =>
      simp only [List.zipWith_cons_cons, List.mem_cons] at hv
      cases hv with
      | inl h =>
        subst h
        simp [smul, hr r (by simp)]
      | inr h =>
        exact ih rows (fun u hu => hr u (by simp [hu])) v h

theorem rowsDot_length (D : ℕ) (a : Vec) (rows : List Vec)
    (hna : a ≠ []) (hne : rows ≠ []) (hr : ∀ r ∈ rows, r.length = D) :
    (rowsDot a rows).length = D := by
  cases a with
  | nil => exact absurd rfl hna
  | cons c a =>
    cases rows with
    | nil => exact absurd rfl hne
    | cons r rows =>
      show ((List.zipWith smul (c :: a) (r :: rows)).foldl vaddPad []).length = D
      simp only [List.zipWith_cons_cons, List.foldl_cons]
      have h0 : vaddPad [] (smul c r) = smul c r := rfl
      rw [h0]
      apply foldl_vaddPad_length D
      · simp [smul, hr r (by simp)]
      · exact zipWith_smul_length_mem D a rows (fun u hu => hr u (by simp [hu]))

theorem map_getD_zipWith_smul (a : Vec) (rows : List Vec) (j : ℕ) :
    (List.zipWith smul a rows).map (fun v => v.getD j 0)
      = (a.zip rows).map (fun pr => pr.1 * pr.2.getD j 0) := by
  induction a generalizing rows with
  | nil => simp
  | cons c a ih =>
    cases rows with
    | nil => simp
    | cons r rows =>
      simp only [List.zipWith_cons_cons, List.zip_cons_cons, List.map_cons, smul_getD, ih]

theorem rowsDot_getD (a : Vec) (rows : List Vec) (j : ℕ) :
    (rowsDot a rows).getD j 0
      = ((a.zip rows).map (fun pr => pr.1 * pr.2.getD j 0)).sum := by
  rw [rowsDot, foldl_vaddPad_getD, map_getD_zipWith_smul]
  simp

theorem dot_replicate_zero (n : ℕ) (v : Vec) : dot (List.replicate n 0) v = 0 := by
  induction n generalizing v with
  | zero => simp [dot]
  | succ n ih =>
    cases v with
    | nil => simp [dot]
    | cons b v =>
      have h : dot (List.replicate (n + 1) 0) (b :: v)
          = 0 * b + dot (List.replicate n 0) v := by
        simp [dot, List.replicate_succ]
      rw [h, ih]
      ring

theorem dot_replicate_one_sum (n : ℕ) (v : Vec) (h : v.length = n) :
    dot (List.replicate n 1) v = v.sum := by
  induction n generalizing v with
  | zero =>
    cases v with
    | nil => simp [dot]
    | cons b v => simp at h
  | succ n ih =>
    cases v with
    | nil => simp at h
    | cons b v =>
      have hl : v.length = n := by simpa using h
      have hstep : dot (List.replicate (n + 1) 1) (b :: v)
          = 1 * b + dot (List.replicate n 1) v := by
        simp [dot, List.replicate_succ]
      rw [hstep, ih v hl]
      simp

theorem dot_set_neg_one (n i : ℕ) (v : Vec) (hi : i < n) (hv : v.length = n) :
    dot ((List.replicate n (0 : ℚ)).set i (-1)) v = -(v.getD i 0) := by
  induction i generalizing n v with
  | zero =>
    cases n with
    | zero => exact absurd hi (by omega)
    | succ n =>
      cases v with
      | nil => simp at hv
      | cons b v =>
        have h1 : (List.replicate (n + 1) (0 : ℚ)).set 0 (-1)
            = (-1) :: List.replicate n 0 := by
          simp [List.replicate_succ]
        have h2 : dot ((-1) :: List.replicate n (0 : ℚ)) (b :: v)
            = (-1) * b + dot (List.replicate n 0) v := by
          simp [dot]
        rw [h1, h2, dot_replicate_zero]
        simp
  | succ i ih =>
    cases n with
    | zero => exact absurd hi (by omega)
    | succ n =>
      cases v with
      | nil => simp at hv
      | cons b v =>
        have h1 : (List.replicate (n + 1) (0 : ℚ)).set (i + 1) (-1)
            = 0 :: (List.replicate n 0).set i (-1) := by
          simp [List.replicate_succ]
        have h2 : dot ((0 : ℚ) :: (List.replicate n (0 : ℚ)).set i (-1)) (b :: v)
            = 0 * b + dot ((List.replicate n 0).set i (-1)) v := by
          simp [dot]
        rw [h1, h2, ih n v (by omega) (by simpa using hv)]
        simp

/-! Lemmas about the QP construction. -/

theorem buildQP_q_length (reg : Bool) (p : Params) (cons : List WConstraint) :
    (buildQP reg p cons).q.length = cons.length := by
  simp [buildQP]

theorem buildQP_A (reg : Bool) (p : Params) (cons : List WConstraint) :
    (buildQP reg p cons).A = [List.replicate cons.length (1 : ℚ)] := by
  simp [buildQP]

theorem buildQP_b (reg : Bool) (p : Params) (cons : List WConstraint) :
    (buildQP reg p cons).b = [p.C] := by
  simp [buildQP]

theorem negIdy_length (n : ℕ) : (negIdy n).length = n := by
  simp [negIdy]

theorem negIdy_getD (n i : ℕ) (hi : i < n) :
    (negIdy n).getD i [] = (List.replicate n (0 : ℚ)).set i (-1) := by
  have hlen : i < (negIdy n).length := by simpa [negIdy_length] using hi
  rw [List.getD_eq_getElem _ _ hlen]
  simp [negIdy]

theorem buildQP_G_length_ge (reg : Bool) (p : Params) (cons : List WConstraint) :
    cons.length ≤ (buildQP reg p cons).G.length := by
  simp [buildQP, negIdy_length]

theorem getD_append_left {α : Type} (l1 l2 : List α) (d : α) (i : ℕ)
    (h : i < l1.length) :
    (l1 ++ l2).getD i d = l1.getD i d := by
  rw [List.getD_eq_getElem _ _ (by simp; omega), List.getD_eq_getElem _ _ h,
    List.getElem_append_left h]

theorem buildQP_G_getD (reg : Bool) (p : Params) (cons : List WConstraint)
    (i : ℕ) (hi : i < cons.length) :
    (buildQP reg p cons).G.getD i []
      = (List.replicate cons.length (0 : ℚ)).set i (-1) := by
  obtain ⟨rest, hG⟩ : ∃ rest, (buildQP reg p cons).G = negIdy cons.length ++ rest := by
    cases hpc : p.positive_constraint with
    | none => exact ⟨[], by simp [buildQP, hpc]⟩
    | some idx => exact ⟨positivityRows idx (cons.map fun c => c.dpsi), by simp [buildQP, hpc]⟩
  rw [hG, getD_append_left _ _ _ _ (by simpa [negIdy_length] using hi)]
  exact negIdy_getD cons.length i hi

theorem buildQP_h_getD (reg : Bool) (p : Params) (cons : List WConstraint)
    (i : ℕ) :
    (buildQP reg p cons).h.getD i 0 = 0 := by
  obtain ⟨m, hm⟩ : ∃ m, (buildQP reg p cons).h = List.replicate m (0 : ℚ) := by
    cases hpc : p.positive_constraint with
    | none => exact ⟨cons.length + 0, by simp [buildQP, hpc, List.replicate_add]⟩
    | some idx =>
      refine ⟨cons.length + idx.length, ?_⟩
      rw [List.replicate_add]
      simp [buildQP, hpc, positivityRows]
  rw [hm]
  exact getD_replicate_zero m i

/-! Lemmas about the loop control flow. -/

theorem fitStep_of_reject {ι : Type} (solver : QPInput → QPSolution)
    (findC : ι → Lab → Vec → Lab × Vec × ℚ × ℚ) (p : Params)
    (XY : List (ι × Lab)) (ns : ℕ) (st : FitState)
    (h : (stepCheck findC p XY st).reject = true) :
    fitStep solver findC p XY ns st
      = ({ st with inferenceCalls := st.inferenceCalls + XY.length }, true) := by
  simp [fitStep, h]

theorem fitStep_snd_of_not_reject {ι : Type} (solver : QPInput → QPSolution)
    (findC : ι → Lab → Vec → Lab × Vec × ℚ × ℚ) (p : Params)
    (XY : List (ι × Lab)) (ns : ℕ) (st : FitState)
    (h : (stepCheck findC p XY st).reject = false) :
    (fitStep solver findC p XY ns st).2 = false := by
  simp [fitStep, h]

theorem fitStep_constraints_of_not_reject {ι : Type} (solver : QPInput → QPSolution)
    (findC : ι → Lab → Vec → Lab × Vec × ℚ × ℚ) (p : Params)
    (XY : List (ι × Lab)) (ns : ℕ) (st : FitState)
    (h : (stepCheck findC p XY st).reject = false) :
    (fitStep solver findC p XY ns st).1.constraints
      = st.constraints ++ [newConstraint findC p XY st] := by
  simp [fitStep, h]

theorem fitLoop_zero {ι : Type} (solver : QPInput → QPSolution)
    (findC : ι → Lab → Vec → Lab × Vec × ℚ × ℚ) (p : Params)
    (XY : List (ι × Lab)) (ns : ℕ) (st : FitState) :
    fitLoop solver findC p XY ns 0 st = st := rfl

theorem fitLoop_stop_of_reject {ι : Type} (solver : QPInput → QPSolution)
    (findC : ι → Lab → Vec → Lab × Vec × ℚ × ℚ) (p : Params)
    (XY : List (ι × Lab)) (ns fuel : ℕ) (st : FitState)
    (h : (stepCheck findC p XY st).reject = true) :
    fitLoop solver findC p XY ns (fuel + 1) st
      = { st with inferenceCalls := st.inferenceCalls + XY.length } := by
  simp only [fitLoop]
  rw [fitStep_of_reject solver findC p XY ns st h]
  simp

theorem fitLoop_go_of_not_reject {ι : Type} (solver : QPInput → QPSolution)
    (findC : ι → Lab → Vec → Lab × Vec × ℚ × ℚ) (p : Params)
    (XY : List (ι × Lab)) (ns fuel : ℕ) (st : FitState)
    (h : (stepCheck findC p XY st).reject = false) :
    fitLoop solver findC p XY ns (fuel + 1) st
      = fitLoop solver findC p XY ns fuel (fitStep solver findC p XY ns st).1 := by
  simp only [fitLoop]
  rw [fitStep_snd_of_not_reject solver findC p XY ns st h]
  simp

theorem fitLoop_constraints_extend {ι : Type} (solver : QPInput → QPSolution)
    (findC : ι → Lab → Vec → Lab × Vec × ℚ × ℚ) (p : Params)
    (XY : List (ι × Lab)) (ns : ℕ) :
    ∀ (fuel : ℕ) (st : FitState),
      ∃ t, (fitLoop solver findC p XY ns fuel st).constraints = st.constraints ++ t := by
  intro fuel
  induction fuel with
  | zero => intro st; exact ⟨[], by simp [fitLoop_zero]⟩
  | succ fuel ih =>
    intro st
    by_cases h : (stepCheck findC p XY st).reject = true
    · refine ⟨[], ?_⟩
      rw [fitLoop_stop_of_reject solver findC p XY ns fuel st h]
      simp
    · have hb : (stepCheck findC p XY st).reject = false := by simpa using h
      obtain ⟨t, ht⟩ := ih (fitStep solver findC p XY ns st).1
      refine ⟨[newConstraint findC p XY st] ++ t, ?_⟩
      rw [fitLoop_go_of_not_reject solver findC p XY ns fuel st hb, ht,
        fitStep_constraints_of_not_reject solver findC p XY ns st hb,
        List.append_assoc]

/-! Dimension invariant: the weight vector and every stored feature
difference keep the feature-map dimension `D = size_psi`. -/

def goodState (D : ℕ) (st : FitState) : Prop :=
  st.w.length = D ∧ ∀ c ∈ st.constraints, c.dpsi.length = D

theorem stepAgg_dpsiMean_length {ι : Type} (findC : ι → Lab → Vec → Lab × Vec × ℚ × ℚ)
    (XY : List (ι × Lab)) (D : ℕ) (w : Vec)
    (hFind : ∀ x y w, ((findC x y w).2.1).length = D) :
    (stepAgg findC XY D w).dpsiMean.length = D := by
  simp only [stepAgg]
  rw [List.length_map]
  apply foldl_vaddPad_length D
  · exact List.length_replicate D 0
  · intro v hv
    simp only [List.mem_map] at hv
    obtain ⟨r, hr, hveq⟩ := hv
    obtain ⟨xy, _, hreq⟩ := hr
    rw [← hveq, ← hreq]
    exact hFind xy.1 xy.2 w

theorem finalSolution_x_length (solver : QPInput → QPSolution) (p : Params)
    (cons : List WConstraint)
    (hSolver : ∀ inp, ((solver inp).x).length = inp.q.length) :
    (finalSolution solver p cons).1.x.length = cons.length := by
  by_cases h : isNonOptimal (solver (buildQP false p cons)).status = true
  · simp [finalSolution, h, hSolver, buildQP_q_length]
  · simp [finalSolution, h, hSolver, buildQP_q_length]

theorem solve1SlackQP_w_length (D : ℕ) (solver : QPInput → QPSolution) (p : Params)
    (cons : List WConstraint) (ns : ℕ)
    (hSolver : ∀ inp, ((solver inp).x).length = inp.q.length)
    (hne : cons ≠ []) (hd : ∀ c ∈ cons, c.dpsi.length = D) :
    (solve1SlackQP solver p cons ns).w.length = D := by
  have ha : (finalSolution solver p cons).1.x.length = cons.length :=
    finalSolution_x_length solver p cons hSolver
  show (rowsDot (finalSolution solver p cons).1.x (cons.map (fun c => c.dpsi))).length = D
  apply rowsDot_length D
  · intro h0
    rw [h0] at ha
    exact hne (List.length_eq_zero.mp ha.symm)
  · intro h0
    exact hne (List.map_eq_nil_iff.mp h0)
  · intro r hr
    obtain ⟨c, hc, hceq⟩ := List.mem_map.mp hr
    rw [← hceq]
    exact hd c hc

theorem fitStep_good {ι : Type} (solver : QPInput → QPSolution)
    (findC : ι → Lab → Vec → Lab × Vec × ℚ × ℚ) (p : Params)
    (XY : List (ι × Lab)) (ns : ℕ) (st : FitState)
    (hFind : ∀ x y w, ((findC x y w).2.1).length = p.size_psi)
    (hSolver : ∀ inp, ((solver inp).x).length = inp.q.length)
    (hst : goodState p.size_psi st) :
    goodState p.size_psi (fitStep solver findC p XY ns st).1 := by
  by_cases h : (stepCheck findC p XY st).reject = true
  · rw [fitStep_of_reject solver findC p XY ns st h]
    exact ⟨hst.1, hst.2⟩
  · have hb : (stepCheck findC p XY st).reject = false := by simpa using h
    have hcons : ∀ c ∈ st.constraints ++ [newConstraint findC p XY st],
        c.dpsi.length = p.size_psi := by
      intro c hc
      rcases List.mem_append.mp hc with h1 | h2
      · exact hst.2 c h1
      · rw [List.mem_singleton.mp h2]
        exact stepAgg_dpsiMean_length findC XY p.size_psi st.w hFind
    constructor
    · have hw : (fitStep solver findC p XY ns st).1.w
          = (solve1SlackQP solver p (st.constraints ++ [newConstraint findC p XY st]) ns).w := by
        simp [fitStep, hb]
      rw [hw]
      exact solve1SlackQP_w_length p.size_psi solver p _ ns hSolver (by simp) hcons
    · have hc : (fitStep solver findC p XY ns st).1.constraints
          = st.constraints ++ [newConstraint findC p XY st] :=
        fitStep_constraints_of_not_reject solver findC p XY ns st hb
      rw [hc]
      exact hcons

theorem fitLoop_good {ι : Type} (solver : QPInput → QPSolution)
    (findC : ι → Lab → Vec → Lab × Vec × ℚ × ℚ) (p : Params)
    (XY : List (ι × Lab)) (ns : ℕ)
    (hFind : ∀ x y w, ((findC x y w).2.1).length = p.size_psi)
    (hSolver : ∀ inp, ((solver inp).x).length = inp.q.length) :
    ∀ (fuel : ℕ) (st : FitState), goodState p.size_psi st →
      goodState p.size_psi (fitLoop solver findC p XY ns fuel st) := by
  intro fuel
  induction fuel with
  | zero => intro st h; simpa [fitLoop_zero] using h
  | succ fuel ih =>
    intro st h
    have hg := fitStep_good solver findC p XY ns st hFind hSolver h
    by_cases hb : (stepCheck findC p XY st).reject = true
    · rw [fitLoop_stop_of_reject solver findC p XY ns fuel st hb]
      exact ⟨h.1, h.2⟩
    · rw [fitLoop_go_of_not_reject solver findC p XY ns fuel st (by simpa using hb)]
      exact ih _ hg

theorem any_map_id {α : Type} (l : List α) (f : α → Bool) :
    (l.map f).any id = l.any f := by
  induction l with
  | nil => rfl
  | cons a l ih => simp [ih]

theorem all_zip_self (l : List (List Int)) :
    (List.zip l l).all (fun pr => pr.1 == pr.2) = true := by
  induction l with
  | nil => rfl
  | cons a l ih => simp [ih]

theorem isDuplicate_of_eq (ysPlain : List (List Int)) (c : WConstraint)
    (h : ysPlain = c.Ys.map unwrap_pairwise) : isDuplicate ysPlain c = true := by
  unfold isDuplicate
  rw [← h]
  exact all_zip_self ysPlain

/-! The claims. -/

/-- Claim C1, behavior of the code at the failing input: with a QP solver
that reports non-optimal status on both attempts, `_solve_1_slack_qp`
retries exactly once with the regularized kernel, then — instead of surfacing
a solver-failure error — invokes the interactive debugger (`tracerInvoked`)
and returns normally, with weights computed from the non-optimal solution. -/
theorem solver_failure_behavior :
    (solve1SlackQP badSolver pEx [⟨[Lab.plain [0]], [1, 0], 1⟩] 1).regularizedRetry = true
    ∧ (solve1SlackQP badSolver pEx [⟨[Lab.plain [0]], [1, 0], 1⟩] 1).tracerInvoked = true
    ∧ (solve1SlackQP badSolver pEx [⟨[Lab.plain [0]], [1, 0], 1⟩] 1).w = [1, 0] := by
  norm_num [solve1SlackQP, finalSolution, buildQP, gram, addDiag, negIdy, rowsDot,
    smul, vaddPad, dot, badSolver, pEx, isNonOptimal]

/-- Claim C2: when `check_constraints` is enabled and neither the small-slack
test nor the duplicate test fires, the checker rejects exactly the constraints
for which some prior constraint `c` has
`slack - max(c.loss_mean - dot(w, c.dpsi_mean), 0) < -1e-5`, entering the
diagnostic break precisely when `break_on_bad` is configured; when
`check_constraints` is false the step is skipped entirely (no rejection).
Any rejection makes the training loop stop without touching the store. -/
theorem inference_inconsistency_check (p : Params) (Ys : List Lab) (slack : ℚ)
    (old : List WConstraint) (w : Vec)
    (h1 : ¬ slack < epsSlack)
    (h2 : ∀ c ∈ old, isDuplicate (Ys.map unwrap_pairwise) c = false) :
    (p.check_constraints = true →
      (∃ c ∈ old, slack - max (c.loss - dot w c.dpsi) 0 < -epsSlack) →
      check_bad_constraint p Ys slack old w = ⟨true, p.break_on_bad⟩)
    ∧ (p.check_constraints = false →
        check_bad_constraint p Ys slack old w = ⟨false, false⟩)
    ∧ (∀ (ι : Type) (solver : QPInput → QPSolution)
        (findC : ι → Lab → Vec → Lab × Vec × ℚ × ℚ) (XY : List (ι × Lab))
        (ns fuel : ℕ) (st : FitState),
        (stepCheck findC p XY st).reject = true →
        (fitLoop solver findC p XY ns (fuel + 1) st).constraints = st.constraints) := by
  have hE : (old.map (fun c => isDuplicate (Ys.map unwrap_pairwise) c)).any id = false := by
    rw [any_map_id, List.any_eq_false]
    intro c hc
    simp [h2 c hc]
  refine ⟨?_, ?_, ?_⟩
  · intro hcc hex
    obtain ⟨c, hc, hlt⟩ := hex
    have hA : old.any
        (fun con => decide (slack - max (con.loss - dot w con.dpsi) 0 < -epsSlack)) = true :=
      List.any_eq_true.mpr ⟨c, hc, by simpa using hlt⟩
    simp [check_bad_constraint, h1, hE, hcc, hA]
  · intro hcc
    simp [check_bad_constraint, h1, hE, hcc]
  · intro ι solver findC XY ns fuel st hrej
    rw [fitLoop_stop_of_reject solver findC p XY ns fuel st hrej]

/-- Witness for C2 at concrete inputs: slack 1/2, one prior constraint with
recomputed slack 1, checking and `break_on_bad` enabled. -/
theorem inference_inconsistency_check_witness :
    check_bad_constraint ⟨1, 1, 1, true, none, true⟩ [Lab.plain [5]] (1 / 2)
      [⟨[Lab.plain [7]], [1], 1⟩] [0] = ⟨true, true⟩ :=
  (inference_inconsistency_check ⟨1, 1, 1, true, none, true⟩ [Lab.plain [5]] (1 / 2)
      [⟨[Lab.plain [7]], [1], 1⟩] [0] (by norm_num [epsSlack]) (by decide)).1 rfl
    ⟨⟨[Lab.plain [7]], [1], 1⟩, List.mem_singleton.mpr rfl, by norm_num [dot, epsSlack]⟩

/-- Claim C3, behavior of the code at the failing input: `fit` with
`len(X) = 2` and `len(Y) = 1` raises nothing — `zip` silently truncates the
pairs, an inference call is made, and training proceeds to accept a
constraint. -/
theorem length_mismatch_behavior :
    (fit okSolver exFind cfgEx [0, 1] [Lab.plain [0]] none).inferenceCalls = 1
    ∧ (fit okSolver exFind cfgEx [0, 1] [Lab.plain [0]] none).constraints.length = 1 := by
  norm_num [fit, fitP, fitLoop, fitStep, stepCheck, stepAgg, newConstraint,
    check_bad_constraint, isDuplicate, unwrap_pairwise, solve1SlackQP, finalSolution,
    buildQP, gram, rowsDot, smul, vaddPad, dot, okSolver, exFind, cfgEx, epsSlack,
    isNonOptimal]

/-- Claim C4: if the new outputs, after unwrapping any pairwise wrapping, are
element-wise identical to some prior constraint's outputs, the checker
rejects; and whenever the checker rejects, the loop terminates immediately
with the constraint store unchanged (its length does not grow). -/
theorem duplicate_rejection (p : Params) (Ys : List Lab) (slack : ℚ)
    (old : List WConstraint) (w : Vec) :
    ((∃ c ∈ old, Ys.map unwrap_pairwise = c.Ys.map unwrap_pairwise) →
      (check_bad_constraint p Ys slack old w).reject = true)
    ∧ (∀ (ι : Type) (solver : QPInput → QPSolution)
        (findC : ι → Lab → Vec → Lab × Vec × ℚ × ℚ) (XY : List (ι × Lab))
        (ns fuel : ℕ) (st : FitState),
        (stepCheck findC p XY st).reject = true →
        (fitLoop solver findC p XY ns (fuel + 1) st).constraints = st.constraints) := by
  constructor
  · intro hex
    obtain ⟨c, hc, heq⟩ := hex
    by_cases hs : slack < epsSlack
    · simp [check_bad_constraint, hs]
    · have hE : (old.map (fun c => isDuplicate (Ys.map unwrap_pairwise) c)).any id = true := by
        rw [any_map_id]
        exact List.any_eq_true.mpr ⟨c, hc, isDuplicate_of_eq _ c heq⟩
      simp [check_bad_constraint, hs, hE]
  · intro ι solver findC XY ns fuel st hrej
    rw [fitLoop_stop_of_reject solver findC p XY ns fuel st hrej]

/-- Witness for C4 at concrete inputs: an exact duplicate is rejected, and a
loop starting from a state whose checker rejects leaves the store unchanged. -/
theorem duplicate_rejection_witness :
    (check_bad_constraint ⟨1, 1, 1, true, none, true⟩ [Lab.plain [3]] 1
        [⟨[Lab.plain [3]], [1], 1⟩] [0]).reject = true
    ∧ (fitLoop okSolver (fun (_ : ℕ) _ _ => (Lab.plain [0], [0], (0 : ℚ), (0 : ℚ)))
        ⟨1, 1, 1, true, none, true⟩ [(0, Lab.plain [0])] 1 1
        ⟨[0], [], [], [], [], 0, 0⟩).constraints
      = (⟨[0], [], [], [], [], 0, 0⟩ : FitState).constraints :=
  ⟨(duplicate_rejection ⟨1, 1, 1, true, none, true⟩ [Lab.plain [3]] 1
      [⟨[Lab.plain [3]], [1], 1⟩] [0]).1
      ⟨⟨[Lab.plain [3]], [1], 1⟩, List.mem_singleton.mpr rfl, rfl⟩,
    (duplicate_rejection ⟨1, 1, 1, true, none, true⟩ [Lab.plain [3]] 1
      [⟨[Lab.plain [3]], [1], 1⟩] [0]).2 ℕ okSolver
      (fun _ _ _ => (Lab.plain [0], [0], (0 : ℚ), (0 : ℚ))) [(0, Lab.plain [0])] 1 0
      ⟨[0], [], [], [], [], 0, 0⟩
      (by norm_num [stepCheck, stepAgg, check_bad_constraint, dot, vaddPad, epsSlack])⟩

/-- Claim C5: the checker's first test precedes all others — any constraint
with `slack < 1e-5` is rejected, regardless of store contents, flags, or
weights. -/
theorem small_slack_rejected (p : Params) (Ys : List Lab) (slack : ℚ)
    (old : List WConstraint) (w : Vec) (h : slack < epsSlack) :
    (check_bad_constraint p Ys slack old w).reject = true := by
  simp [check_bad_constraint, h]

/-- Witness for C5 at a concrete input. -/
theorem small_slack_rejected_witness :
    (check_bad_constraint pEx [] 0 [] []).reject = true :=
  small_slack_rejected pEx [] 0 [] [] (by norm_num [epsSlack])

/-- Claim C6: the loop's streaming accumulation computes exactly
`dpsi_mean = (1/N) * sum(dpsi_i)` coordinate-wise, `loss_mean` is
`(1/N) * sum(loss_i)`, and `slack = loss_mean - dot(w, dpsi_mean)`. -/
theorem aggregation_is_mean {ι : Type} (findC : ι → Lab → Vec → Lab × Vec × ℚ × ℚ)
    (XY : List (ι × Lab)) (D : ℕ) (w : Vec) (j : ℕ) :
    (stepAgg findC XY D w).dpsiMean.getD j 0
      = (1 / (XY.length : ℚ))
        * ((XY.map (fun xy => (findC xy.1 xy.2 w).2.1)).map (fun d => d.getD j 0)).sum
    ∧ (stepAgg findC XY D w).lossMean
      = (1 / (XY.length : ℚ)) * (XY.map (fun xy => (findC xy.1 xy.2 w).2.2.2)).sum
    ∧ (stepAgg findC XY D w).slack
      = (stepAgg findC XY D w).lossMean - dot w (stepAgg findC XY D w).dpsiMean := by
  have hd : (stepAgg findC XY D w).dpsiMean
      = (((XY.map (fun xy => findC xy.1 xy.2 w)).map (fun r => r.2.1)).foldl vaddPad
          (List.replicate D 0)).map
          (fun a =>
            a / (((XY.map (fun xy => findC xy.1 xy.2 w)).map (fun r => r.2.1)).length : ℚ)) :=
    rfl
  have hl : (stepAgg findC XY D w).lossMean
      = ((XY.map (fun xy => findC xy.1 xy.2 w)).map (fun r => r.2.2.2)).sum
        / (((XY.map (fun xy => findC xy.1 xy.2 w)).map (fun r => r.2.2.2)).length : ℚ) :=
    rfl
  refine ⟨?_, ?_, rfl⟩
  · rw [hd, getD_map_div, foldl_vaddPad_getD, getD_replicate_zero, zero_add]
    simp only [List.map_map, List.length_map]
    rw [one_div, inv_mul_eq_div]
    rfl
  · rw [hl]
    simp only [List.map_map, List.length_map]
    rw [one_div, inv_mul_eq_div]
    rfl

/-- Claim C7: the QP adapter passes the row-of-ones equality constraint `A`
with `b = [C]`; any dual solution of the right dimension satisfying the
passed constraints has `sum(alpha) = C` and `alpha >= 0` (one multiplier per
stored constraint); and the returned weight vector is coordinate-wise the
alpha-weighted sum of the stored mean feature differences. -/
theorem qp_equality_and_weights (p : Params) (cons : List WConstraint)
    (solver : QPInput → QPSolution) (ns : ℕ) :
    (buildQP false p cons).A = [List.replicate cons.length (1 : ℚ)]
    ∧ (buildQP false p cons).b = [p.C]
    ∧ (∀ x : Vec, x.length = cons.length →
        dot (List.replicate cons.length 1) x = p.C →
        (∀ i, i < (buildQP false p cons).G.length →
          dot ((buildQP false p cons).G.getD i []) x ≤ (buildQP false p cons).h.getD i 0) →
        x.sum = p.C ∧ ∀ i, i < cons.length → 0 ≤ x.getD i 0)
    ∧ (∀ j : ℕ, (solve1SlackQP solver p cons ns).w.getD j 0
        = (((finalSolution solver p cons).1.x.zip (cons.map (fun c => c.dpsi))).map
            (fun pr => pr.1 * pr.2.getD j 0)).sum) := by
  refine ⟨buildQP_A false p cons, buildQP_b false p cons, ?_, ?_⟩
  · intro x hx heq hG
    constructor
    · rw [← dot_replicate_one_sum cons.length x hx]
      exact heq
    · intro i hi
      have hGl : i < (buildQP false p cons).G.length :=
        lt_of_lt_of_le hi (buildQP_G_length_ge false p cons)
      have hrow := hG i hGl
      rw [buildQP_G_getD false p cons i hi, buildQP_h_getD false p cons i,
        dot_set_neg_one cons.length i x hi hx] at hrow
      linarith
  · intro j
    exact rowsDot_getD _ _ j

/-- Witness for C7 at concrete inputs: a one-constraint store with `C = 1`
and the dual solution `[1]`. -/
theorem qp_equality_and_weights_witness :
    [(1 : ℚ)].sum = pEx.C ∧ ∀ i, i < 1 → 0 ≤ [(1 : ℚ)].getD i 0 :=
  (qp_equality_and_weights pEx [⟨[Lab.plain [0]], [1, 0], 1⟩] okSolver 1).2.2.1 [1]
    (by decide) (by norm_num [dot, pEx, List.replicate])
    (by
      intro i hi
      have hi2 : i = 0 := by
        simp [buildQP, negIdy, positivityRows, pEx] at hi
        omega
      subst hi2
      norm_num [buildQP, negIdy, positivityRows, dot, pEx])

/-- Claim C8: at the start of `fit` the weight vector is all zeros of
dimension `size_psi` (the run with `max_iter = 0` returns it untouched), and
provided the collaborators respect dimensions — each `dpsi` of the inference
results, each warm-start constraint, and the solver's solution size — the
final trained `w` again has dimension `size_psi`. -/
theorem w_dimension_invariant {ι : Type} (solver : QPInput → QPSolution)
    (findC : ι → Lab → Vec → Lab × Vec × ℚ × ℚ) (cfg : Config)
    (X : List ι) (Y : List Lab) (c0 : Option (List WConstraint))
    (hFind : ∀ x y w, ((findC x y w).2.1).length = cfg.size_psi)
    (hSolver : ∀ inp, ((solver inp).x).length = inp.q.length)
    (hc0 : ∀ c ∈ c0.getD [], c.dpsi.length = cfg.size_psi) :
    (fit solver findC { cfg with max_iter := 0 } X Y c0).w
        = List.replicate cfg.size_psi 0
    ∧ (fit solver findC cfg X Y c0).w.length = cfg.size_psi := by
  constructor
  · rfl
  · exact (fitLoop_good solver findC cfg.toParams (X.zip Y) X.length hFind hSolver
      cfg.toParams.max_iter
      ⟨List.replicate cfg.size_psi 0, c0.getD [], [], [], [], 0, 0⟩
      ⟨List.length_replicate _ _, hc0⟩).1

/-- Witness for C8 with concrete collaborators of feature dimension 1. -/
theorem w_dimension_invariant_witness :
    (fit okSolver exFind { cfgEx with max_iter := 0 } [0] [Lab.plain [0]] none).w
        = List.replicate cfgEx.size_psi 0
    ∧ (fit okSolver exFind cfgEx [0] [Lab.plain [0]] none).w.length = cfgEx.size_psi :=
  w_dimension_invariant okSolver exFind cfgEx [0] [Lab.plain [0]] none
    (fun _ _ _ => rfl) (fun _ => List.length_replicate _ _)
    (fun c hc => absurd hc (List.not_mem_nil c))

/-- Claim C9: `tol` has no effect — two configurations differing only in
`tol` make `fit` perform the same iterations and produce identical final
weights, constraint store, and curves. -/
theorem tol_has_no_effect {ι : Type} (solver : QPInput → QPSolution)
    (findC : ι → Lab → Vec → Lab × Vec × ℚ × ℚ) (p : Params) (t1 t2 : ℚ)
    (X : List ι) (Y : List Lab) (c0 : Option (List WConstraint)) :
    fit solver findC ⟨p, t1⟩ X Y c0 = fit solver findC ⟨p, t2⟩ X Y c0 := rfl

/-- Claim C10: a warm-start list is mutated in place — after `fit` the
caller's reference holds the original list extended by the accepted
constraints, and `constraints_` aliases that same reference; passing `None`
allocates a fresh list instead. -/
theorem warm_start_aliasing {ι : Type} (solver : QPInput → QPSolution)
    (findC : ι → Lab → Vec → Lab × Vec × ℚ × ℚ) (cfg : Config)
    (X : List ι) (Y : List Lab) (h : ListHeap) :
    (∀ r : ℕ,
        (fitOnHeap solver findC cfg X Y h (some r)).ref = r
        ∧ (fitOnHeap solver findC cfg X Y h (some r)).heap.store r
            = (fitOnHeap solver findC cfg X Y h (some r)).res.constraints
        ∧ ∃ t, (fitOnHeap solver findC cfg X Y h (some r)).res.constraints
            = h.store r ++ t)
    ∧ ((fitOnHeap solver findC cfg X Y h none).ref = h.fresh
        ∧ (fitOnHeap solver findC cfg X Y h none).heap.fresh = h.fresh + 1
        ∧ (fitOnHeap solver findC cfg X Y h none).heap.store h.fresh
            = (fitOnHeap solver findC cfg X Y h none).res.constraints) := by
  constructor
  · intro r
    refine ⟨rfl, by simp [fitOnHeap], ?_⟩
    exact fitLoop_constraints_extend solver findC cfg.toParams (X.zip Y) X.length
      cfg.toParams.max_iter
      ⟨List.replicate cfg.size_psi 0, h.store r, [], [], [], 0, 0⟩
  · exact ⟨rfl, rfl, by simp [fitOnHeap]⟩

end OneSlackSSVM
